import Mathlib

/-!
# Verification of the discount-application subsystem

Shallow embedding of the discount engine of the recommendations service
(`src/service/models.py`: `Recommendation.apply_flat_discount_to_accessories`,
`Recommendation.apply_custom_discounts`; `src/service/routes.py`:
`validate_discount_percent`).

Modelling conventions:
* Python `Decimal` values that the engine computes with are finite decimals,
  modelled as exact rationals (`ℚ`).  The sqlalchemy `Numeric(14, 2)` price
  columns hold at most 2 fractional digits, and every arithmetic step of the
  engine stays far below the decimal context precision of 28 significant
  digits, so context rounding never fires and the rational model is exact.
* The record store (one sqlalchemy session/table) is a `List Recommendation`.
  `db.session.commit()` is the only point at which mutations become durable;
  each operation returns its outcome together with the committed store: on any
  raised error the commit is never reached, so the committed store is the
  input store.  Commit itself is modelled as succeeding (storage-failure
  wrapping is outside the claims considered here).
* `datetime.now(timezone.utc)` is captured exactly once per operation in the
  source (`current_timestamp = datetime.now(timezone.utc)`); the embedding
  takes that single captured value as the explicit parameter `now`.
* JSON/Python runtime values reaching the custom-discount loop are modelled
  by small inductive types (`PyKey`, `PyVal`, `PyConfig`) that record exactly
  the distinctions the source code branches on.
-/

deriving instance DecidableEq for Except

/-- Error outcomes of the engine class methods in `models.py`:
`DataValidationError`, `ResourceNotFoundError`, and the two exceptions the
custom percentage check can raise that no `except` clause in the engine
catches — a Python `TypeError` from an order comparison between a
non-numeric, non-bool value and an `int` (e.g. `"10" <= 0`), and a
`decimal.InvalidOperation` from a failing `Decimal(str(value))` conversion
after the comparisons passed (e.g. `Decimal("True")`). -/
inductive EngineError where
  | validation (msg : String)
  | notFound (msg : String)
  | typeError
  | invalidOperation
deriving DecidableEq

/-- A stored recommendation row (`Recommendation` model, `models.py`).
Prices are `Numeric(14, 2)`, nullable, modelled as `Option ℚ`; timestamps are
abstract instants modelled as `Nat`.  The two description columns are never
read nor written by the discount engine and are omitted. -/
structure Recommendation where
  id : Nat
  base_product_id : Nat
  recommended_product_id : Nat
  recommendation_type : String
  status : String
  confidence_score : ℚ
  base_product_price : Option ℚ
  recommended_product_price : Option ℚ
  created_date : Nat
  updated_date : Nat
deriving DecidableEq

/-- The record store: the rows of the `recommendations` table, in the order
the session iterates them. -/
abbrev Store := List Recommendation

/-- Model of `Recommendation.find(by_id)` — primary-key lookup; on a list store this is
the first row carrying the id. -/
def findById (store : Store) (rid : Nat) : Option Recommendation :=
  store.find? (fun r => r.id == rid)

/-- Model of `Recommendation.find_by_recommendation_type(rec_type)` — the filtered scan
used by the flat-discount path. -/
def find_by_recommendation_type (store : Store) (rec_type : String) : Store :=
  store.filter (fun r => r.recommendation_type == rec_type)

/-- Replace the first row carrying id `rid` by `newRec` (in-place mutation of
the session object returned by `Recommendation.find`). -/
def storeSetFirst (rid : Nat) (newRec : Recommendation) : Store → Store
  | [] => []
  | r :: rest => if r.id == rid then newRec :: rest else r :: storeSetFirst rid newRec rest

/-- Python `Decimal.quantize(Decimal("0.01"), rounding=ROUND_HALF_UP)` on the
scaled integer: round to the nearest integer, ties away from zero. -/
def roundHalfUpInt (x : ℚ) : ℤ :=
  if 0 ≤ x then ⌊x + 1 / 2⌋ else -⌊-x + 1 / 2⌋

/-- Model of `value.quantize(Decimal("0.01"), rounding=ROUND_HALF_UP)` — round to
exactly 2 fractional digits, half-up (ties away from zero). -/
def quantize2 (x : ℚ) : ℚ := (roundHalfUpInt (x * 100) : ℚ) / 100

/-- The §4.1 helper `ApplyPercentDiscount(price, percent)`: the price
computation `(price * ((100 - percent) / 100)).quantize(Decimal("0.01"),
ROUND_HALF_UP)` that both engine paths inline verbatim (`models.py`
lines 331–350 with the multiplier hoisted out of the loop, and lines 458–479
per config field). -/
def applyPercentDiscount (price percent : ℚ) : ℚ :=
  quantize2 (price * ((100 - percent) / 100))

/-- Body of the `for recommendation in accessory_recommendations` loop of
`apply_flat_discount_to_accessories` (`models.py` lines 333–354): discount
each present price, and stamp `updated_date` when at least one price was
present.  Returns the mutated row and the `recommendation_was_updated` flag. -/
def flatDiscountRecord (now : Nat) (discount_multiplier : ℚ) (r : Recommendation) :
    Recommendation × Bool :=
  let step1 :=
    match r.base_product_price with
    | some p => ({ r with base_product_price := some (quantize2 (p * discount_multiplier)) }, true)
    | none => (r, false)
  let step2 :=
    match step1.1.recommended_product_price with
    | some p =>
      ({ step1.1 with recommended_product_price := some (quantize2 (p * discount_multiplier)) },
        true)
    | none => (step1.1, false)
  if step1.2 || step2.2 then ({ step2.1 with updated_date := now }, true)
  else (step2.1, false)

/-- The `updated_recommendation_ids` list the flat-discount loop collects:
ids of the matched accessory rows whose `recommendation_was_updated` flag was
set, in iteration order (`discount_multiplier = (100 - d) / 100` is hoisted
out of the loop in the source). -/
def flatUpdatedIds (now : Nat) (discount_percentage : ℚ) (store : Store) : List Nat :=
  ((find_by_recommendation_type store "accessory").filter
    (fun r => (flatDiscountRecord now ((100 - discount_percentage) / 100) r).2)).map (·.id)

/-- The session contents the flat-discount loop leaves for commit: every
accessory row transformed by the loop body, every other row untouched. -/
def flatCommit (now : Nat) (discount_percentage : ℚ) (store : Store) : Store :=
  store.map (fun r =>
    if r.recommendation_type == "accessory" then
      (flatDiscountRecord now ((100 - discount_percentage) / 100) r).1
    else r)

/-- Model of `Recommendation.apply_flat_discount_to_accessories(discount_percentage)`
(`models.py` lines 302–366).  `now` is the single captured
`current_timestamp`.  Returns the call outcome together with the committed
store (the input store when any error is raised before commit). -/
def applyFlatDiscountToAccessories (now : Nat) (discount_percentage : ℚ) (store : Store) :
    Except EngineError (List Nat × Nat) × Store :=
  if discount_percentage ≤ 0 ∨ 100 ≤ discount_percentage then
    (.error (.validation "Discount must be between 0 and 100"), store)
  else if (find_by_recommendation_type store "accessory").length = 0 then
    (.error (.notFound "No matching accessory recommendations found"), store)
  else if flatUpdatedIds now discount_percentage store = [] then
    (.error (.notFound "No matching accessory recommendations found"), store)
  else
    (.ok (flatUpdatedIds now discount_percentage store,
        (flatUpdatedIds now discount_percentage store).length),
      flatCommit now discount_percentage store)

/-- A key of the JSON mapping passed to `apply_custom_discounts`, abstracted
by the outcome of `int(recommendation_id_str)`: either it parses to an id or
it raises (`ValueError`/`TypeError`, both caught by the source). -/
inductive PyKey where
  | numeric (rid : Nat)
  | malformed
deriving DecidableEq

/-- A JSON value appearing as a percentage inside a config object: a (finite)
number, a string, a boolean (a Python `bool` is an `int` subclass, so it
*passes* the order comparisons as `0` or `1` but `Decimal(str(.))` on it
raises), or any other non-numeric value (array/object, which raise
`TypeError` on an order comparison with an `int`). -/
inductive PyVal where
  | num (q : ℚ)
  | str (s : String)
  | bool (b : Bool)
  | other
deriving DecidableEq

/-- The observable content of a config dict: the two recognised keys
(`.get(...)`, `none` covering both an absent key and a JSON `null` value) and
whether any further keys make the dict non-empty. -/
structure ConfigDict where
  base_product_price : Option PyVal
  recommended_product_price : Option PyVal
  has_other_keys : Bool
deriving DecidableEq

/-- A value of the mapping: a dict, or any non-dict JSON value
(`isinstance(discount_config, dict)` fails). -/
inductive PyConfig where
  | notDict
  | dict (c : ConfigDict)
deriving DecidableEq

/-- Python truthiness `not discount_config` for a dict: it has no keys. -/
def configIsEmpty (c : ConfigDict) : Bool :=
  c.base_product_price.isNone && c.recommended_product_price.isNone && !c.has_other_keys

/-- The per-field percentage check of `apply_custom_discounts` (`models.py`
lines 426–444): `if v is not None: if v <= 0 or v >= 100: raise
DataValidationError(...); v = Decimal(str(v))`.  Case by case over the value
shapes a parsed JSON body can supply:
* a number is compared against the open interval and, in range, converted
  exactly by `Decimal(str(v))`;
* a string (or an array/object) hits the order comparison `v <= 0` and
  raises an uncaught `TypeError`;
* the bool `False` compares as the int `0`, so `False <= 0` is true and the
  check raises `DataValidationError`;
* the bool `True` compares as the int `1`, so `True <= 0` and `True >= 100`
  are both false, and `Decimal(str(True))` — i.e. `Decimal("True")` — then
  raises an uncaught `decimal.InvalidOperation`. -/
def validatePresentPercent : Option PyVal → Except EngineError (Option ℚ)
  | none => .ok none
  | some (.num q) =>
    if q ≤ 0 ∨ 100 ≤ q then .error (.validation "Discount must be between 0 and 100")
    else .ok (some q)
  | some (.str _) => .error .typeError
  | some (.bool false) => .error (.validation "Discount must be between 0 and 100")
  | some (.bool true) => .error .invalidOperation
  | some .other => .error .typeError

/-- The price-mutation block of one custom-discount entry (`models.py`
lines 451–484) applied to the found record: discount each price whose
percentage was supplied *and* whose stored value is present, and stamp
`updated_date` when the record was marked updated.  Returns the mutated row
and the `recommendation_was_updated` flag. -/
def customDiscountRecord (now : Nat) (basePct recPct : Option ℚ) (r : Recommendation) :
    Recommendation × Bool :=
  let step1 :=
    match basePct, r.base_product_price with
    | some dq, some p =>
      ({ r with base_product_price := some (quantize2 (p * ((100 - dq) / 100))) }, true)
    | _, _ => (r, false)
  let step2 :=
    match recPct, step1.1.recommended_product_price with
    | some dq, some p =>
      ({ step1.1 with recommended_product_price := some (quantize2 (p * ((100 - dq) / 100))) },
        true)
    | _, _ => (step1.1, false)
  if step1.2 || step2.2 then ({ step2.1 with updated_date := now }, true)
  else (step2.1, false)

/-- One iteration of the `for (recommendation_id_str, discount_config)` loop
of `apply_custom_discounts` (`models.py` lines 398–484): key parse, config
shape checks, percentage validation, lookup (silent skip when absent), price
mutation and `updated_date` stamping.  Threads the session store and the
`updated_recommendation_ids` accumulator. -/
def processEntry (now : Nat) (e : PyKey × PyConfig) (store : Store) (acc : List Nat) :
    Except EngineError (Store × List Nat) :=
  match e.1 with
  | .malformed => .error (.validation "Keys must be numeric recommendation IDs")
  | .numeric rid =>
    match e.2 with
    | .notDict => .error (.validation "Each value must be an object with price discount fields")
    | .dict c =>
      if configIsEmpty c then
        .error (.validation "Each value must be an object with price discount fields")
      else if c.base_product_price.isNone ∧ c.recommended_product_price.isNone then
        .error
          (.validation "Provide at least one of base_product_price or recommended_product_price")
      else
        match validatePresentPercent c.base_product_price with
        | .error err => .error err
        | .ok basePct =>
          match validatePresentPercent c.recommended_product_price with
          | .error err => .error err
          | .ok recPct =>
            match findById store rid with
            | none => .ok (store, acc)
            | some r =>
              let res := customDiscountRecord now basePct recPct r
              if res.2 then .ok (storeSetFirst rid res.1 store, acc ++ [rid])
              else .ok (store, acc)

/-- The whole entry loop of `apply_custom_discounts`, entries in dict
iteration (= JSON insertion) order. -/
def customLoop (now : Nat) : List (PyKey × PyConfig) → Store → List Nat →
    Except EngineError (Store × List Nat)
  | [], store, acc => .ok (store, acc)
  | e :: rest, store, acc =>
    match processEntry now e store acc with
    | .error err => .error err
    | .ok (store1, acc1) => customLoop now rest store1 acc1

/-- Model of `Recommendation.apply_custom_discounts(recommendation_discount_mappings)`
(`models.py` lines 368–493).  The mapping is the key/value list of the JSON
dict (`not isinstance(..., dict)` cannot arise for a parsed JSON object, and
`not mapping` is emptiness).  Returns the call outcome together with the
committed store. -/
def applyCustomDiscounts (now : Nat) (mappings : List (PyKey × PyConfig)) (store : Store) :
    Except EngineError (List Nat) × Store :=
  if mappings.isEmpty then
    (.error (.validation "JSON body must map recommendation_id to discount objects"), store)
  else
    match customLoop now mappings store [] with
    | .error err => (.error err, store)
    | .ok (store1, ids) => (.ok ids, store1)

/-! ## The HTTP-layer percentage validator (`routes.py`) -/

/-- A Python `Decimal` as produced by `Decimal(str(value))`: a finite decimal
number, a NaN, or a signed infinity. -/
inductive ParsedDec where
  | fin (q : ℚ)
  | nan
  | posInf
  | negInf
deriving DecidableEq

/-- The raw `discount` input abstracted by the outcome of
`Decimal(str(value))`: the constructor raises (`InvalidOperation` /
`ValueError` / `TypeError`, all caught), or yields a decimal — note that the
strings `"NaN"` and `"Infinity"` *do* construct decimals. -/
inductive DiscountParam where
  | unparseable
  | parsed (d : ParsedDec)
deriving DecidableEq

/-- Outcomes of `validate_discount_percent` as seen through the HTTP layer:
`abort(400, ...)` (the ValidationError class of failure), or an exception the
function does not catch, surfaced as a server error. -/
inductive RouteFailure where
  | badRequest (msg : String)
  | internalError
deriving DecidableEq

/-- Python decimal comparison `pct <= Decimal("0")`.  Comparing a NaN with
`<=` raises `decimal.InvalidOperation` (modelled as `.error ()`). -/
def decimalLeZero : ParsedDec → Except Unit Bool
  | .fin q => .ok (decide (q ≤ 0))
  | .nan => .error ()
  | .posInf => .ok false
  | .negInf => .ok true

/-- Python decimal comparison `pct >= Decimal("100")`; NaN raises. -/
def decimalGeHundred : ParsedDec → Except Unit Bool
  | .fin q => .ok (decide (100 ≤ q))
  | .nan => .error ()
  | .posInf => .ok true
  | .negInf => .ok false

/-- Model of `validate_discount_percent(value)` (`routes.py` lines 501–510): the
`try` only wraps the `Decimal` constructor; the subsequent range comparison
`pct <= Decimal("0") or pct >= Decimal("100")` short-circuits and is outside
every `except` clause. -/
def validate_discount_percent (value : DiscountParam) : Except RouteFailure ParsedDec :=
  match value with
  | .unparseable => .error (.badRequest "Discount must be between 0 and 100")
  | .parsed pct =>
    match decimalLeZero pct with
    | .error _ => .error .internalError
    | .ok true => .error (.badRequest "Discount must be between 0 and 100")
    | .ok false =>
      match decimalGeHundred pct with
      | .error _ => .error .internalError
      | .ok true => .error (.badRequest "Discount must be between 0 and 100")
      | .ok false => .ok pct

/-! ## Claim-side predicates

Decidable predicates phrasing the claims over the embedded input types. -/

/-- A present percentage value that is numeric but outside the open interval
`(0, 100)` — the "out-of-range percentage" malformation. -/
def percentOutOfRange : Option PyVal → Bool
  | some (.num q) => decide (q ≤ 0) || decide (100 ≤ q)
  | _ => false

/-- A malformed mapping entry in the sense of the spec: a non-numeric key, a
non-object or empty config, a config with neither discount field, or an
out-of-range percentage. -/
def entryMalformed : PyKey × PyConfig → Bool
  | (.malformed, _) => true
  | (_, .notDict) => true
  | (_, .dict c) =>
    configIsEmpty c ||
    (c.base_product_price.isNone && c.recommended_product_price.isNone) ||
    percentOutOfRange c.base_product_price ||
    percentOutOfRange c.recommended_product_price

/-- A percentage slot that the custom path can process without raising: the
value is absent, or numeric and strictly inside `(0, 100)`. -/
def percentPresentValid : Option PyVal → Bool
  | none => true
  | some (.num q) => decide (0 < q) && decide (q < 100)
  | some _ => false

/-- A percentage slot that is absent or holds a numeric value. -/
def percentNumericOrAbsent : Option PyVal → Bool
  | none => true
  | some (.num _) => true
  | some _ => false

/-- Every percentage value present anywhere in the mapping is numeric (the
regime in which the source raises only `DataValidationError`). -/
def allPercentsNumeric (ms : List (PyKey × PyConfig)) : Bool :=
  ms.all fun e =>
    match e.2 with
    | .notDict => true
    | .dict c =>
      percentNumericOrAbsent c.base_product_price &&
      percentNumericOrAbsent c.recommended_product_price

/-- A well-formed mapping entry: numeric key, a non-empty config object with
at least one discount field, and every present percentage numeric and inside
`(0, 100)`. -/
def wellFormedEntry : PyKey × PyConfig → Bool
  | (.numeric _, .dict c) =>
    !configIsEmpty c &&
    !(c.base_product_price.isNone && c.recommended_product_price.isNone) &&
    percentPresentValid c.base_product_price &&
    percentPresentValid c.recommended_product_price
  | _ => false

/-- Whether a config dict causes a found record to be marked
`recommendation_was_updated`: some supplied percentage meets a present price. -/
def stampsRecord (c : ConfigDict) (r : Recommendation) : Bool :=
  (c.base_product_price.isSome && r.base_product_price.isSome) ||
  (c.recommended_product_price.isSome && r.recommended_product_price.isSome)

/-- Whether processing mapping entry `e` stamps record `r` (assuming `r` is
the row `Recommendation.find` returns for its id). -/
def entryStamps (e : PyKey × PyConfig) (r : Recommendation) : Bool :=
  match e with
  | (.numeric rid, .dict c) => (r.id == rid) && stampsRecord c r
  | _ => false

/-! ## Concrete fixtures -/

/-- An accessory row priced (100.00, 50.00) — spec §8 Scenario 1, first record. -/
def scenarioRec1 : Recommendation :=
  { id := 1, base_product_id := 11, recommended_product_id := 21,
    recommendation_type := "accessory", status := "active", confidence_score := 9 / 10,
    base_product_price := some 100, recommended_product_price := some 50,
    created_date := 0, updated_date := 0 }

/-- An accessory row priced (20.00, 10.00) — spec §8 Scenario 1, second record. -/
def scenarioRec2 : Recommendation :=
  { id := 2, base_product_id := 12, recommended_product_id := 22,
    recommendation_type := "accessory", status := "active", confidence_score := 8 / 10,
    base_product_price := some 20, recommended_product_price := some 10,
    created_date := 0, updated_date := 0 }

/-- An accessory row whose only present price is `0.00`: the discount
recomputes it to the same value `0.00`. -/
def zeroPriceRec : Recommendation :=
  { id := 7, base_product_id := 13, recommended_product_id := 23,
    recommendation_type := "accessory", status := "active", confidence_score := 1 / 2,
    base_product_price := some 0, recommended_product_price := none,
    created_date := 0, updated_date := 0 }

/-- A custom mapping whose first entry carries a string-typed percentage and
whose second entry has a non-numeric key (a malformed entry in the claim
sense). -/
def mixedBadMapping : List (PyKey × PyConfig) :=
  [(PyKey.numeric 1, PyConfig.dict ⟨some (PyVal.str "boom"), none, false⟩),
    (PyKey.malformed, PyConfig.notDict)]

/-- C8: the concrete flat-discount scenario, proved as one evaluation. -/
theorem flat_discount_scenario1 :
    applyFlatDiscountToAccessories 99 10 [scenarioRec1, scenarioRec2]
      = (.ok ([1, 2], 2),
          [{ scenarioRec1 with
              base_product_price := some 90, recommended_product_price := some 45,
              updated_date := 99 },
            { scenarioRec2 with
              base_product_price := some 18, recommended_product_price := some 9,
              updated_date := 99 }]) := by
  simp only [applyFlatDiscountToAccessories, flatUpdatedIds, flatCommit,
    find_by_recommendation_type, flatDiscountRecord, scenarioRec1, scenarioRec2,
    List.filter, List.map]
  norm_num [quantize2, roundHalfUpInt]
  decide


/-- C1 counterexample: this mapping contains a malformed entry (its second,
with a non-numeric key), yet `apply_custom_discounts` does not fail with
`DataValidationError`: the first entry's string percentage hits the raw
comparison `"boom" <= 0` and raises an uncaught `TypeError` first. -/
theorem custom_malformed_claim_cex :
    entryMalformed (PyKey.malformed, PyConfig.notDict) = true ∧
    applyCustomDiscounts 5 mixedBadMapping [scenarioRec1]
      = (.error .typeError, [scenarioRec1]) :=
  ⟨rfl, rfl⟩

/-- C2 counterexample: the accessory row priced `(0.00, null)` has both price
fields unchanged by `ApplyFlatDiscount(10)` (`0.00` is recomputed to `0.00`),
yet its `updated_date` is refreshed from `0` to the batch timestamp `1` and
its id is reported as updated. -/
theorem updated_date_claim_cex :
    applyFlatDiscountToAccessories 1 10 [zeroPriceRec]
      = (.ok ([7], 1), [{ zeroPriceRec with updated_date := 1 }]) ∧
    zeroPriceRec.base_product_price = some 0 ∧
    zeroPriceRec.recommended_product_price = none ∧
    zeroPriceRec.updated_date = 0 := by
  refine ⟨?_, rfl, rfl, rfl⟩
  simp only [applyFlatDiscountToAccessories, flatUpdatedIds, flatCommit,
    find_by_recommendation_type, flatDiscountRecord, zeroPriceRec, List.filter, List.map]
  norm_num [quantize2, roundHalfUpInt]

/-- C4 counterexample: a custom entry whose percentage is the *string*
`"10"` — a value `ValidatePercentage` would accept — makes the whole call
raise an uncaught `TypeError` instead of failing with `DataValidationError`
(and instead of succeeding). -/
theorem custom_percent_string_cex :
    applyCustomDiscounts 5
        [(PyKey.numeric 1, PyConfig.dict ⟨some (PyVal.str "10"), none, false⟩)] [scenarioRec1]
      = (.error .typeError, [scenarioRec1]) ∧
    validate_discount_percent (.parsed (.fin 10)) = .ok (.fin 10) := by
  constructor
  · rfl
  · decide

/-- C9 counterexample: the input `"NaN"` parses to a decimal NaN, and the
range comparison then raises `decimal.InvalidOperation` outside every
`except` clause: `validate_discount_percent` neither succeeds nor aborts with
the ValidationError-class 400. -/
theorem validate_nan_cex :
    validate_discount_percent (.parsed .nan) = .error .internalError :=
  rfl

/-- C3: the rounding law for `ApplyPercentDiscount`.  For a non-negative
price `p` and a percent `d` in the open interval `(0, 100)` the computation
shared by both discount paths equals round-half-up of `p * (100 - d) / 100`
at 2 fractional digits: it is the closed half-up form, carries exactly 2
fractional digits (`· * 100` is an integer), lies within half an ulp of the
exact value, and on a tie rounds to the larger magnitude.  It is a pure Lean
function, hence deterministic. -/
theorem applyPercentDiscount_spec (p d : ℚ) (hp : 0 ≤ p) (_h0 : 0 < d) (h1 : d < 100) :
    applyPercentDiscount p d = quantize2 (p * ((100 - d) / 100)) ∧
    applyPercentDiscount p d = (⌊p * (100 - d) / 100 * 100 + 1 / 2⌋ : ℚ) / 100 ∧
    (applyPercentDiscount p d * 100).den = 1 ∧
    |applyPercentDiscount p d - p * (100 - d) / 100| ≤ 1 / 200 ∧
    (|applyPercentDiscount p d - p * (100 - d) / 100| = 1 / 200 →
      |p * (100 - d) / 100| ≤ |applyPercentDiscount p d|) := by
  have hx : 0 ≤ p * (100 - d) / 100 :=
    div_nonneg (mul_nonneg hp (by linarith)) (by norm_num)
  have hassoc : p * ((100 - d) / 100) = p * (100 - d) / 100 := by ring
  set y : ℚ := p * (100 - d) / 100 * 100 with hydef
  have hy : 0 ≤ y := by positivity
  have hxy : p * (100 - d) / 100 = y / 100 := by rw [hydef]; ring
  have hval : applyPercentDiscount p d = (⌊y + 1 / 2⌋ : ℚ) / 100 := by
    rw [applyPercentDiscount, hassoc, quantize2, roundHalfUpInt, if_pos hy]
  have hle : (⌊y + 1 / 2⌋ : ℚ) ≤ y + 1 / 2 := Int.floor_le _
  have hgt : y - 1 / 2 < (⌊y + 1 / 2⌋ : ℚ) := by
    have := Int.lt_floor_add_one (y + 1 / 2)
    linarith
  refine ⟨rfl, hval, ?_, ?_, ?_⟩
  · rw [hval, div_mul_cancel₀ _ (by norm_num : (100 : ℚ) ≠ 0)]
    exact Rat.den_intCast _
  · rw [hval, hxy, abs_le]
    constructor <;> linarith
  · intro habs
    rw [hval, hxy] at habs ⊢
    rcases (abs_eq (by norm_num : (0 : ℚ) ≤ 1 / 200)).1 habs with heq | heq
    · rw [abs_of_nonneg (by linarith : (0 : ℚ) ≤ y / 100),
        abs_of_nonneg (by linarith : (0 : ℚ) ≤ (⌊y + 1 / 2⌋ : ℚ) / 100)]
      linarith
    · exfalso
      linarith

/-- Witness for `applyPercentDiscount_spec` at the tie input `p = 1.10`,
`d = 5`: the exact value is `1.0450` and half-up yields `1.05` (= `21/20`). -/
theorem applyPercentDiscount_spec_witness :
    (0 : ℚ) ≤ 11 / 10 ∧ (0 : ℚ) < 5 ∧ (5 : ℚ) < 100 ∧
    applyPercentDiscount (11 / 10) 5 = 21 / 20 ∧
    |applyPercentDiscount (11 / 10) 5 - 11 / 10 * (100 - 5) / 100| ≤ 1 / 200 :=
  ⟨by norm_num, by norm_num, by norm_num,
    by norm_num [applyPercentDiscount, quantize2, roundHalfUpInt],
    (applyPercentDiscount_spec (11 / 10) 5 (by norm_num) (by norm_num)
      (by norm_num)).2.2.2.1⟩

/-- C9 (amended): `validate_discount_percent` is a pure function (hence
deterministic), and for every input that does not parse to a decimal NaN it
aborts with the 400 ValidationError-class failure exactly when the input is
unparseable or its parsed value is `≤ 0` or `≥ 100` (the infinities falling
under those comparisons), and returns the parsed value otherwise.  An input
parsing to NaN instead raises an unhandled `decimal.InvalidOperation`
(`validate_nan_cex`). -/
theorem validate_discount_percent_spec (v : DiscountParam) (hnn : v ≠ .parsed .nan) :
    (validate_discount_percent v = .error (.badRequest "Discount must be between 0 and 100")
      ↔ (v = .unparseable ∨ v = .parsed .posInf ∨ v = .parsed .negInf ∨
          ∃ q : ℚ, v = .parsed (.fin q) ∧ (q ≤ 0 ∨ 100 ≤ q))) ∧
    (∀ p : ParsedDec, v = .parsed p →
      ¬(p = .posInf ∨ p = .negInf ∨ ∃ q : ℚ, p = .fin q ∧ (q ≤ 0 ∨ 100 ≤ q)) →
      validate_discount_percent v = .ok p) := by
  match v with
  | .unparseable =>
    refine ⟨⟨fun _ => Or.inl rfl, fun _ => rfl⟩, ?_⟩
    intro p hp
    exact absurd hp (by simp)
  | .parsed .nan => exact absurd rfl hnn
  | .parsed .posInf =>
    refine ⟨⟨fun _ => Or.inr (Or.inl rfl), fun _ => rfl⟩, ?_⟩
    intro p hp hno
    exact absurd (Or.inl (by injection hp with h; exact h.symm)) hno
  | .parsed .negInf =>
    refine ⟨⟨fun _ => Or.inr (Or.inr (Or.inl rfl)), fun _ => rfl⟩, ?_⟩
    intro p hp hno
    exact absurd (Or.inr (Or.inl (by injection hp with h; exact h.symm))) hno
  | .parsed (.fin q) =>
    by_cases hq0 : q ≤ 0
    · refine ⟨⟨fun _ => Or.inr (Or.inr (Or.inr ⟨q, rfl, Or.inl hq0⟩)), fun _ => ?_⟩, ?_⟩
      · simp [validate_discount_percent, decimalLeZero, decide_eq_true hq0]
      · intro p hp hno
        injection hp with h
        exact absurd (Or.inr (Or.inr ⟨q, h.symm, Or.inl hq0⟩)) hno
    · by_cases hq1 : 100 ≤ q
      · refine ⟨⟨fun _ => Or.inr (Or.inr (Or.inr ⟨q, rfl, Or.inr hq1⟩)), fun _ => ?_⟩, ?_⟩
        · simp [validate_discount_percent, decimalLeZero, decimalGeHundred,
            decide_eq_false hq0, decide_eq_true hq1]
        · intro p hp hno
          injection hp with h
          exact absurd (Or.inr (Or.inr ⟨q, h.symm, Or.inr hq1⟩)) hno
      · have hok : validate_discount_percent (.parsed (.fin q)) = .ok (.fin q) := by
          simp [validate_discount_percent, decimalLeZero, decimalGeHundred,
            decide_eq_false hq0, decide_eq_false hq1]
        refine ⟨⟨fun habs => ?_, fun hcond => ?_⟩, ?_⟩
        · rw [hok] at habs
          exact absurd habs (by simp)
        · rcases hcond with h | h | h | ⟨q2, hq2, hrange⟩
          · exact absurd h (by simp)
          · exact absurd h (by simp)
          · exact absurd h (by simp)
          · injection hq2 with h2
            injection h2 with h3
            subst h3
            rcases hrange with h | h
            · exact absurd h hq0
            · exact absurd h hq1
        · intro p hp _
          injection hp with h
          subst h
          exact hok

/-- Witness for `validate_discount_percent_spec`: the boundary value `0`
fails with the 400 ValidationError-class message, and `0.01` succeeds. -/
theorem validate_discount_percent_spec_witness :
    DiscountParam.parsed (.fin 0) ≠ .parsed .nan ∧
    validate_discount_percent (.parsed (.fin 0))
      = .error (.badRequest "Discount must be between 0 and 100") ∧
    DiscountParam.parsed (.fin (1 / 100)) ≠ .parsed .nan ∧
    validate_discount_percent (.parsed (.fin (1 / 100))) = .ok (.fin (1 / 100)) :=
  ⟨by simp, (validate_discount_percent_spec (.parsed (.fin 0)) (by simp)).1.mpr
      (Or.inr (Or.inr (Or.inr ⟨0, rfl, Or.inl le_rfl⟩))),
    by simp,
    (validate_discount_percent_spec (.parsed (.fin (1 / 100))) (by simp)).2 (.fin (1 / 100)) rfl
      (by norm_num; simp)⟩

/-- C4 (amended): in `apply_custom_discounts` a *numeric* percentage present
in an entry's config is validated against the `(0, 100)` open interval, and
an out-of-range numeric value fails the whole call with
`DataValidationError`; but, unlike `validate_discount_percent` (which parses
its input first and accepts numeric strings), a non-numeric percentage does
not uniformly fail with `DataValidationError`: a string — even one
`ValidatePercentage` would accept, such as `"10"` — or an array/object
raises an uncaught `TypeError`; the boolean `false` compares as the int `0`
and fails with `DataValidationError`; and the boolean `true` compares as the
int `1`, passes the range check, and then raises an uncaught
`decimal.InvalidOperation` at the `Decimal` conversion.  Stated for an entry
heading the mapping, for either price field, with arbitrary following
entries. -/
theorem custom_percent_validation (now : Nat) (store : Store) (rid : Nat) (v : PyVal)
    (rest : List (PyKey × PyConfig)) :
    (∀ q : ℚ, v = .num q → (q ≤ 0 ∨ 100 ≤ q) →
      applyCustomDiscounts now
          ((PyKey.numeric rid, PyConfig.dict ⟨some v, none, false⟩) :: rest) store
        = (.error (.validation "Discount must be between 0 and 100"), store) ∧
      applyCustomDiscounts now
          ((PyKey.numeric rid, PyConfig.dict ⟨none, some v, false⟩) :: rest) store
        = (.error (.validation "Discount must be between 0 and 100"), store)) ∧
    ((∀ q : ℚ, v ≠ .num q) → (∀ b : Bool, v ≠ .bool b) →
      applyCustomDiscounts now
          ((PyKey.numeric rid, PyConfig.dict ⟨some v, none, false⟩) :: rest) store
        = (.error .typeError, store) ∧
      applyCustomDiscounts now
          ((PyKey.numeric rid, PyConfig.dict ⟨none, some v, false⟩) :: rest) store
        = (.error .typeError, store)) ∧
    (v = .bool false →
      applyCustomDiscounts now
          ((PyKey.numeric rid, PyConfig.dict ⟨some v, none, false⟩) :: rest) store
        = (.error (.validation "Discount must be between 0 and 100"), store) ∧
      applyCustomDiscounts now
          ((PyKey.numeric rid, PyConfig.dict ⟨none, some v, false⟩) :: rest) store
        = (.error (.validation "Discount must be between 0 and 100"), store)) ∧
    (v = .bool true →
      applyCustomDiscounts now
          ((PyKey.numeric rid, PyConfig.dict ⟨some v, none, false⟩) :: rest) store
        = (.error .invalidOperation, store) ∧
      applyCustomDiscounts now
          ((PyKey.numeric rid, PyConfig.dict ⟨none, some v, false⟩) :: rest) store
        = (.error .invalidOperation, store)) := by
  refine ⟨?_, ?_, ?_, ?_⟩
  · intro q hv hrange
    subst hv
    constructor <;>
      simp [applyCustomDiscounts, customLoop, processEntry, configIsEmpty,
        validatePresentPercent, hrange]
  · intro hnotnum hnotbool
    match v, hnotnum, hnotbool with
    | .num q, h, _ => exact absurd rfl (h q)
    | .bool b, _, h => exact absurd rfl (h b)
    | .str s, _, _ =>
      constructor <;>
        simp [applyCustomDiscounts, customLoop, processEntry, configIsEmpty,
          validatePresentPercent]
    | .other, _, _ =>
      constructor <;>
        simp [applyCustomDiscounts, customLoop, processEntry, configIsEmpty,
          validatePresentPercent]
  · intro hv
    subst hv
    constructor <;>
      simp [applyCustomDiscounts, customLoop, processEntry, configIsEmpty,
        validatePresentPercent]
  · intro hv
    subst hv
    constructor <;>
      simp [applyCustomDiscounts, customLoop, processEntry, configIsEmpty,
        validatePresentPercent]

/-- Witness for `custom_percent_validation`: the out-of-range numeric
percentage `200` fails with `DataValidationError`, and the boolean `true`
percentage raises the uncaught `decimal.InvalidOperation`. -/
theorem custom_percent_validation_witness :
    applyCustomDiscounts 5
        [(PyKey.numeric 1, PyConfig.dict ⟨some (PyVal.num 200), none, false⟩)] [scenarioRec1]
      = (.error (.validation "Discount must be between 0 and 100"), [scenarioRec1]) ∧
    applyCustomDiscounts 5
        [(PyKey.numeric 1, PyConfig.dict ⟨some (PyVal.bool true), none, false⟩)] [scenarioRec1]
      = (.error .invalidOperation, [scenarioRec1]) :=
  ⟨((custom_percent_validation 5 [scenarioRec1] 1 (PyVal.num 200) []).1 200 rfl
      (by norm_num)).1,
    ((custom_percent_validation 5 [scenarioRec1] 1 (PyVal.bool true) []).2.2.2 rfl).1⟩

/-! ## List and store machinery -/

/-- A successful `validatePresentPercent` preserves presence: the parsed
percentage is `some` exactly when the config value was supplied. -/
lemma validatePresentPercent_isSome {o : Option PyVal} {p : Option ℚ}
    (h : validatePresentPercent o = .ok p) : p.isSome = o.isSome := by
  match o, h with
  | none, h => injection h with h; subst h; rfl
  | some (.num q), h =>
    rw [validatePresentPercent] at h
    by_cases hq : q ≤ 0 ∨ 100 ≤ q
    · rw [if_pos hq] at h; exact absurd h (by simp)
    · rw [if_neg hq] at h; injection h with h; subst h; rfl

/-- Composition of two pointwise relations along a middle list. -/
lemma forall₂_relComp {α β γ : Type} {R : α → β → Prop} {S : β → γ → Prop}
    {l1 : List α} {l2 : List β} {l3 : List γ}
    (h1 : List.Forall₂ R l1 l2) (h2 : List.Forall₂ S l2 l3) :
    List.Forall₂ (fun a c => ∃ b, R a b ∧ S b c) l1 l3 := by
  induction h1 generalizing l3 with
  | nil => cases h2; exact List.Forall₂.nil
  | cons hab htl ih =>
    cases h2 with
    | cons hbc htl2 => exact List.Forall₂.cons ⟨_, hab, hbc⟩ (ih htl2)

/-- Every element of the right list of a `Forall₂` has a related witness on
the left. -/
lemma forall₂_mem_right {α β : Type} {R : α → β → Prop} {l1 : List α} {l2 : List β}
    (h : List.Forall₂ R l1 l2) {b : β} (hb : b ∈ l2) : ∃ a, a ∈ l1 ∧ R a b := by
  induction h with
  | nil => cases hb
  | cons hab _ ih =>
    rcases List.mem_cons.1 hb with rfl | hb2
    · exact ⟨_, List.mem_cons_self .., hab⟩
    · rcases ih hb2 with ⟨a, ha, hr⟩
      exact ⟨a, List.mem_cons_of_mem _ ha, hr⟩

/-- If a pointwise relation fixes the image under `f`, the mapped lists are
equal. -/
lemma forall₂_map_eq {α β γ : Type} {R : α → β → Prop} {l1 : List α} {l2 : List β}
    (f : α → γ) (g : β → γ) (h : List.Forall₂ R l1 l2)
    (hf : ∀ a b, R a b → g b = f a) : l2.map g = l1.map f := by
  induction h with
  | nil => rfl
  | cons hab _ ih => simp [ih, hf _ _ hab]

/-- The predicate `entryStamps` only inspects a record's id and price presence. -/
lemma entryStamps_congr (e : PyKey × PyConfig) {r r2 : Recommendation}
    (hid : r2.id = r.id)
    (hb : r2.base_product_price.isSome = r.base_product_price.isSome)
    (hr : r2.recommended_product_price.isSome = r.recommended_product_price.isSome) :
    entryStamps e r2 = entryStamps e r := by
  obtain ⟨k, cfg⟩ := e
  cases k with
  | malformed => cases cfg <;> rfl
  | numeric rid =>
    cases cfg with
    | notDict => rfl
    | dict c => simp [entryStamps, stampsRecord, hid, hb, hr]

/-- Replacing the row `Recommendation.find` located, pointwise, under a
reflexive-on-others relation (no duplicate ids needed). -/
lemma forall₂_setFirst (R : Recommendation → Recommendation → Prop) (rid : Nat)
    (newRec : Recommendation) (store : Store)
    (hrefl : ∀ a ∈ store, R a a)
    (hrep : ∀ r, findById store rid = some r → R r newRec) :
    List.Forall₂ R store (storeSetFirst rid newRec store) := by
  induction store with
  | nil => exact List.Forall₂.nil
  | cons h t ih =>
    rw [storeSetFirst]
    by_cases hb : (h.id == rid) = true
    · rw [if_pos hb]
      refine List.Forall₂.cons (hrep h ?_) (List.forall₂_same.2 ?_)
      · rw [findById, List.find?_cons, hb]
      · intro a ha
        exact hrefl a (List.mem_cons_of_mem _ ha)
    · rw [if_neg hb]
      refine List.Forall₂.cons (hrefl h (List.mem_cons_self ..)) (ih ?_ ?_)
      · intro a ha
        exact hrefl a (List.mem_cons_of_mem _ ha)
      · intro r hr
        refine hrep r ?_
        rw [findById, List.find?_cons]
        simp only [hb]
        exact hr

/-- As `forall₂_setFirst`, but reflexivity is only needed away from the
looked-up id; requires ids to be duplicate-free. -/
lemma forall₂_setFirst_nodup (R : Recommendation → Recommendation → Prop) (rid : Nat)
    (newRec : Recommendation) (store : Store)
    (hN : (store.map Recommendation.id).Nodup)
    (hrefl : ∀ a ∈ store, a.id ≠ rid → R a a)
    (hrep : ∀ r, findById store rid = some r → R r newRec) :
    List.Forall₂ R store (storeSetFirst rid newRec store) := by
  induction store with
  | nil => exact List.Forall₂.nil
  | cons h t ih =>
    rw [List.map_cons, List.nodup_cons] at hN
    rw [storeSetFirst]
    by_cases hb : (h.id == rid) = true
    · rw [if_pos hb]
      refine List.Forall₂.cons (hrep h ?_) (List.forall₂_same.2 ?_)
      · rw [findById, List.find?_cons, hb]
      · intro a ha
        refine hrefl a (List.mem_cons_of_mem _ ha) ?_
        intro hcontra
        refine hN.1 ?_
        have hha : h.id = a.id := by rw [eq_of_beq hb, hcontra]
        rw [hha]
        exact List.mem_map_of_mem _ ha
    · rw [if_neg hb]
      refine List.Forall₂.cons
        (hrefl h (List.mem_cons_self ..) (by simpa using hb)) (ih hN.2 ?_ ?_)
      · intro a ha hne
        exact hrefl a (List.mem_cons_of_mem _ ha) hne
      · intro r hr
        refine hrep r ?_
        rw [findById, List.find?_cons]
        simp only [hb]
        exact hr

/-- Lookup characterisation: a successful `findById` yields a member with the
requested id. -/
lemma findById_some {store : Store} {rid : Nat} {r : Recommendation}
    (h : findById store rid = some r) : r ∈ store ∧ r.id = rid := by
  refine ⟨List.mem_of_find?_eq_some h, ?_⟩
  have := List.find?_some h
  exact eq_of_beq this

/-- Lookup failure: `findById` returns `none` when no member carries the id. -/
lemma findById_none {store : Store} {rid : Nat}
    (h : findById store rid = none) : ∀ r ∈ store, r.id ≠ rid := by
  intro r hr
  have := List.find?_eq_none.1 h r hr
  simpa using this

/-- Under duplicate-free ids, a member with the looked-up id is exactly what
`Recommendation.find` returns. -/
lemma findById_eq_of_mem {store : Store} {rid : Nat} {a : Recommendation}
    (hN : (store.map Recommendation.id).Nodup)
    (ha : a ∈ store) (hid : a.id = rid) {r : Recommendation}
    (hf : findById store rid = some r) : a = r := by
  obtain ⟨hmem, hrid⟩ := findById_some hf
  exact List.inj_on_of_nodup_map hN ha hmem (by rw [hid, hrid])

/-- Field-level characterisation of `customDiscountRecord`: id preserved,
price presence preserved (null prices stay null), the updated flag is
exactly "some supplied percentage met a present price", and `updated_date`
is stamped with `now` exactly when the flag is set. -/
lemma customDiscountRecord_spec (now : Nat) (basePct recPct : Option ℚ) (r : Recommendation) :
    (customDiscountRecord now basePct recPct r).1.id = r.id ∧
    (customDiscountRecord now basePct recPct r).1.base_product_price.isSome
      = r.base_product_price.isSome ∧
    (customDiscountRecord now basePct recPct r).1.recommended_product_price.isSome
      = r.recommended_product_price.isSome ∧
    (customDiscountRecord now basePct recPct r).2
      = ((basePct.isSome && r.base_product_price.isSome)
          || (recPct.isSome && r.recommended_product_price.isSome)) ∧
    (customDiscountRecord now basePct recPct r).1.updated_date
      = (if (customDiscountRecord now basePct recPct r).2 = true then now
          else r.updated_date) := by
  obtain ⟨i, bpid, rpid, ty, st, cs, bp, rp, cd, ud⟩ := r
  cases basePct <;> cases bp <;> cases recPct <;> cases rp <;>
    (dsimp only [customDiscountRecord]; simp)

/-- Field-level characterisation of `flatDiscountRecord`: id and type
preserved, price presence preserved (null prices stay null), the updated
flag is exactly "some price was present", and `updated_date` is stamped with
`now` exactly when the flag is set. -/
lemma flatDiscountRecord_spec (now : Nat) (m : ℚ) (r : Recommendation) :
    (flatDiscountRecord now m r).1.id = r.id ∧
    (flatDiscountRecord now m r).1.recommendation_type = r.recommendation_type ∧
    (flatDiscountRecord now m r).1.base_product_price.isSome
      = r.base_product_price.isSome ∧
    (flatDiscountRecord now m r).1.recommended_product_price.isSome
      = r.recommended_product_price.isSome ∧
    (flatDiscountRecord now m r).2
      = (r.base_product_price.isSome || r.recommended_product_price.isSome) ∧
    (flatDiscountRecord now m r).1.updated_date
      = (if (flatDiscountRecord now m r).2 = true then now else r.updated_date) := by
  obtain ⟨i, bpid, rpid, ty, st, cs, bp, rp, cd, ud⟩ := r
  cases bp <;> cases rp <;> (dsimp only [flatDiscountRecord]; simp)

/-- Pointwise effect of one *successfully* processed custom entry on the
session store, under duplicate-free ids: ids and price presence are
preserved, `updated_date` is stamped with `now` on exactly the record the
entry stamps, and every id added to the accumulator is the id of a store
record the entry stamps. -/
lemma processEntry_ok_forall₂ {now : Nat} {e : PyKey × PyConfig} {store : Store}
    {acc : List Nat} {store1 : Store} {acc1 : List Nat}
    (hN : (store.map Recommendation.id).Nodup)
    (h : processEntry now e store acc = .ok (store1, acc1)) :
    List.Forall₂ (fun r r2 =>
      r2.id = r.id ∧
      r2.base_product_price.isSome = r.base_product_price.isSome ∧
      r2.recommended_product_price.isSome = r.recommended_product_price.isSome ∧
      r2.updated_date = (if entryStamps e r = true then now else r.updated_date))
      store store1 ∧
    (∀ x ∈ acc1, x ∈ acc ∨ ∃ r ∈ store, r.id = x ∧ entryStamps e r = true) := by
  obtain ⟨k, cfg⟩ := e
  cases k with
  | malformed => exact absurd h (by simp [processEntry])
  | numeric rid =>
    cases cfg with
    | notDict => exact absurd h (by simp [processEntry])
    | dict c =>
      rw [processEntry] at h
      dsimp only at h
      by_cases hemp : configIsEmpty c = true
      · rw [if_pos hemp] at h; exact absurd h (by simp)
      rw [if_neg hemp] at h
      by_cases hbn : c.base_product_price.isNone = true ∧ c.recommended_product_price.isNone = true
      · rw [if_pos hbn] at h; exact absurd h (by simp)
      rw [if_neg hbn] at h
      cases hvb : validatePresentPercent c.base_product_price with
      | error err => rw [hvb] at h; exact absurd h (by simp)
      | ok basePct =>
        rw [hvb] at h
        cases hvr : validatePresentPercent c.recommended_product_price with
        | error err => rw [hvr] at h; exact absurd h (by simp)
        | ok recPct =>
          rw [hvr] at h
          have hbs := validatePresentPercent_isSome hvb
          have hrs := validatePresentPercent_isSome hvr
          cases hf : findById store rid with
          | none =>
            rw [hf] at h
            simp only [Except.ok.injEq, Prod.mk.injEq] at h
            obtain ⟨h1, h2⟩ := h
            subst h1
            subst h2
            refine ⟨List.forall₂_same.2 ?_, fun x hx => Or.inl hx⟩
            intro r hr
            refine ⟨rfl, rfl, rfl, ?_⟩
            have hne := findById_none hf r hr
            have hfalse : entryStamps (PyKey.numeric rid, PyConfig.dict c) r = false := by
              simp [entryStamps, hne]
            rw [hfalse]
            simp
          | some r0 =>
            rw [hf] at h
            dsimp only at h
            obtain ⟨s1, s2, s3, s4, s5⟩ := customDiscountRecord_spec now basePct recPct r0
            by_cases hu : (customDiscountRecord now basePct recPct r0).2 = true
            · rw [if_pos hu] at h
              simp only [Except.ok.injEq, Prod.mk.injEq] at h
              obtain ⟨h1, h2⟩ := h
              subst h1
              subst h2
              have hstamp : entryStamps (PyKey.numeric rid, PyConfig.dict c) r0 = true := by
                obtain ⟨_, hid⟩ := findById_some hf
                have hsr : stampsRecord c r0 = true := by
                  rw [stampsRecord, ← hbs, ← hrs, ← s4]
                  exact hu
                simp [entryStamps, hid, hsr]
              constructor
              · refine forall₂_setFirst_nodup _ rid _ store hN ?_ ?_
                · intro a _ hne
                  refine ⟨rfl, rfl, rfl, ?_⟩
                  have hfalse : entryStamps (PyKey.numeric rid, PyConfig.dict c) a = false := by
                    simp [entryStamps, hne]
                  rw [hfalse]
                  simp
                · intro rr hfr
                  rw [hf] at hfr
                  injection hfr with hrr
                  subst hrr
                  refine ⟨s1, s2, s3, ?_⟩
                  rw [hstamp, s5, hu]
              · intro x hx
                rcases List.mem_append.1 hx with hx | hx
                · exact Or.inl hx
                · obtain ⟨hmem, hid⟩ := findById_some hf
                  rw [List.mem_singleton] at hx
                  subst hx
                  exact Or.inr ⟨r0, hmem, hid, hstamp⟩
            · rw [if_neg hu] at h
              simp only [Except.ok.injEq, Prod.mk.injEq] at h
              obtain ⟨h1, h2⟩ := h
              subst h1
              subst h2
              have hu2 : (customDiscountRecord now basePct recPct r0).2 = false := by
                simpa using hu
              refine ⟨List.forall₂_same.2 ?_, fun x hx => Or.inl hx⟩
              intro a ha
              refine ⟨rfl, rfl, rfl, ?_⟩
              by_cases hne : a.id = rid
              · have ha0 : a = r0 := findById_eq_of_mem hN ha hne hf
                subst ha0
                have hfalse : entryStamps (PyKey.numeric rid, PyConfig.dict c) a = false := by
                  have hsr : stampsRecord c a = false := by
                    rw [stampsRecord, ← hbs, ← hrs, ← s4]
                    exact hu2
                  simp [entryStamps, hsr]
                rw [hfalse]
                simp
              · have hfalse : entryStamps (PyKey.numeric rid, PyConfig.dict c) a = false := by
                  simp [entryStamps, hne]
                rw [hfalse]
                simp

/-- Frame effect of one successfully processed custom entry, with no
assumption on ids: record ids and price presence (in particular nullness)
are preserved pointwise. -/
lemma processEntry_ok_frame {now : Nat} {e : PyKey × PyConfig} {store : Store}
    {acc : List Nat} {store1 : Store} {acc1 : List Nat}
    (h : processEntry now e store acc = .ok (store1, acc1)) :
    List.Forall₂ (fun r r2 =>
      r2.id = r.id ∧
      r2.base_product_price.isSome = r.base_product_price.isSome ∧
      r2.recommended_product_price.isSome = r.recommended_product_price.isSome)
      store store1 := by
  obtain ⟨k, cfg⟩ := e
  cases k with
  | malformed => exact absurd h (by simp [processEntry])
  | numeric rid =>
    cases cfg with
    | notDict => exact absurd h (by simp [processEntry])
    | dict c =>
      rw [processEntry] at h
      dsimp only at h
      by_cases hemp : configIsEmpty c = true
      · rw [if_pos hemp] at h; exact absurd h (by simp)
      rw [if_neg hemp] at h
      by_cases hbn : c.base_product_price.isNone = true ∧ c.recommended_product_price.isNone = true
      · rw [if_pos hbn] at h; exact absurd h (by simp)
      rw [if_neg hbn] at h
      cases hvb : validatePresentPercent c.base_product_price with
      | error err => rw [hvb] at h; exact absurd h (by simp)
      | ok basePct =>
        rw [hvb] at h
        cases hvr : validatePresentPercent c.recommended_product_price with
        | error err => rw [hvr] at h; exact absurd h (by simp)
        | ok recPct =>
          rw [hvr] at h
          cases hf : findById store rid with
          | none =>
            rw [hf] at h
            simp only [Except.ok.injEq, Prod.mk.injEq] at h
            obtain ⟨h1, _⟩ := h
            subst h1
            exact List.forall₂_same.2 fun r _ => ⟨rfl, rfl, rfl⟩
          | some r0 =>
            rw [hf] at h
            dsimp only at h
            obtain ⟨s1, s2, s3, _, _⟩ := customDiscountRecord_spec now basePct recPct r0
            by_cases hu : (customDiscountRecord now basePct recPct r0).2 = true
            · rw [if_pos hu] at h
              simp only [Except.ok.injEq, Prod.mk.injEq] at h
              obtain ⟨h1, _⟩ := h
              subst h1
              refine forall₂_setFirst _ rid _ store (fun a _ => ⟨rfl, rfl, rfl⟩) ?_
              intro rr hfr
              rw [hf] at hfr
              injection hfr with hrr
              subst hrr
              exact ⟨s1, s2, s3⟩
            · rw [if_neg hu] at h
              simp only [Except.ok.injEq, Prod.mk.injEq] at h
              obtain ⟨h1, _⟩ := h
              subst h1
              exact List.forall₂_same.2 fun r _ => ⟨rfl, rfl, rfl⟩

/-- Congruence of `entryStamps` lifted over a whole mapping. -/
lemma any_entryStamps_congr (ms : List (PyKey × PyConfig)) {r b : Recommendation}
    (hid : b.id = r.id)
    (hb : b.base_product_price.isSome = r.base_product_price.isSome)
    (hr : b.recommended_product_price.isSome = r.recommended_product_price.isSome) :
    ms.any (fun e => entryStamps e b) = ms.any (fun e => entryStamps e r) := by
  induction ms with
  | nil => rfl
  | cons e t ih => simp [List.any_cons, entryStamps_congr e hid hb hr, ih]

/-- Master characterisation of a *successful* custom-discount loop run under
duplicate-free ids: pointwise, ids and price presence are preserved and
`updated_date` is stamped with the single captured `now` exactly on records
some mapping entry stamps; and every id the loop adds to the accumulator is
the id of a store record stamped by some entry. -/
lemma customLoop_ok_forall₂ {now : Nat} {ms : List (PyKey × PyConfig)} :
    ∀ {store : Store} {acc : List Nat} {st : Store} {ids : List Nat},
    (store.map Recommendation.id).Nodup →
    customLoop now ms store acc = .ok (st, ids) →
    List.Forall₂ (fun r r2 =>
      r2.id = r.id ∧
      r2.base_product_price.isSome = r.base_product_price.isSome ∧
      r2.recommended_product_price.isSome = r.recommended_product_price.isSome ∧
      r2.updated_date
        = (if ms.any (fun e2 => entryStamps e2 r) = true then now else r.updated_date))
      store st ∧
    (∀ x ∈ ids, x ∈ acc ∨
      ∃ r ∈ store, r.id = x ∧ ms.any (fun e2 => entryStamps e2 r) = true) := by
  induction ms with
  | nil =>
    intro store acc st ids _ h
    simp only [customLoop, Except.ok.injEq, Prod.mk.injEq] at h
    obtain ⟨h1, h2⟩ := h
    subst h1
    subst h2
    exact ⟨List.forall₂_same.2 (fun r _ => ⟨rfl, rfl, rfl, by simp⟩), fun x hx => Or.inl hx⟩
  | cons e rest ih =>
    intro store acc st ids hN h
    rw [customLoop] at h
    cases hpe : processEntry now e store acc with
    | error err => rw [hpe] at h; exact absurd h (by simp)
    | ok p =>
      obtain ⟨s1, a1⟩ := p
      rw [hpe] at h
      dsimp only at h
      obtain ⟨hstep, hacc⟩ := processEntry_ok_forall₂ hN hpe
      have hids : s1.map Recommendation.id = store.map Recommendation.id :=
        forall₂_map_eq Recommendation.id Recommendation.id hstep (fun a b hr => hr.1)
      have hN1 : (s1.map Recommendation.id).Nodup := by rw [hids]; exact hN
      obtain ⟨hrest, hacc1⟩ := ih hN1 h
      constructor
      · refine (forall₂_relComp hstep hrest).imp ?_
        rintro r r2 ⟨b, ⟨hid1, hb1, hr1, hu1⟩, ⟨hid2, hb2, hr2, hu2⟩⟩
        refine ⟨hid2.trans hid1, hb2.trans hb1, hr2.trans hr1, ?_⟩
        rw [any_entryStamps_congr rest hid1 hb1 hr1] at hu2
        by_cases h1 : entryStamps e r = true <;>
          by_cases h2 : (rest.any fun e2 => entryStamps e2 r) = true <;>
            simp [List.any_cons, h1, h2] at hu1 hu2 ⊢ <;> omega
      · intro x hx
        rcases hacc1 x hx with hx1 | ⟨r1, hmem1, hid1, hany1⟩
        · rcases hacc x hx1 with hx2 | ⟨r, hm, hi, hs⟩
          · exact Or.inl hx2
          · exact Or.inr ⟨r, hm, hi, by simp [List.any_cons, hs]⟩
        · obtain ⟨r, hmem, hid0, hb0, hr0, _⟩ := forall₂_mem_right hstep hmem1
          refine Or.inr ⟨r, hmem, by rw [← hid0]; exact hid1, ?_⟩
          rw [any_entryStamps_congr rest hid0 hb0 hr0] at hany1
          simp [List.any_cons, hany1]

/-- A mapped list is pointwise related to its source. -/
lemma forall₂_map_self {α : Type} {P : α → α → Prop} {l : List α} (f : α → α)
    (h : ∀ a ∈ l, P a (f a)) : List.Forall₂ P l (l.map f) := by
  induction l with
  | nil => exact List.Forall₂.nil
  | cons x t ih =>
    exact List.Forall₂.cons (h x (List.mem_cons_self ..))
      (ih fun a ha => h a (List.mem_cons_of_mem _ ha))

/-- Frame characterisation of a successful custom-discount loop (no id
hypothesis): ids and price presence are preserved pointwise. -/
lemma customLoop_ok_frame {now : Nat} {ms : List (PyKey × PyConfig)} :
    ∀ {store : Store} {acc : List Nat} {st : Store} {ids : List Nat},
    customLoop now ms store acc = .ok (st, ids) →
    List.Forall₂ (fun r r2 =>
      r2.id = r.id ∧
      r2.base_product_price.isSome = r.base_product_price.isSome ∧
      r2.recommended_product_price.isSome = r.recommended_product_price.isSome)
      store st := by
  induction ms with
  | nil =>
    intro store acc st ids h
    simp only [customLoop, Except.ok.injEq, Prod.mk.injEq] at h
    obtain ⟨h1, _⟩ := h
    subst h1
    exact List.forall₂_same.2 fun r _ => ⟨rfl, rfl, rfl⟩
  | cons e rest ih =>
    intro store acc st ids h
    rw [customLoop] at h
    cases hpe : processEntry now e store acc with
    | error err => rw [hpe] at h; exact absurd h (by simp)
    | ok p =>
      obtain ⟨s1, a1⟩ := p
      rw [hpe] at h
      dsimp only at h
      refine (forall₂_relComp (processEntry_ok_frame hpe) (ih h)).imp ?_
      rintro r r2 ⟨b, ⟨hid1, hb1, hr1⟩, ⟨hid2, hb2, hr2⟩⟩
      exact ⟨hid2.trans hid1, hb2.trans hb1, hr2.trans hr1⟩

/-- The committed store of the flat operation is the input store (error
before commit) or the transformed session contents. -/
lemma applyFlat_snd_cases (now : Nat) (d : ℚ) (store : Store) :
    (applyFlatDiscountToAccessories now d store).2 = store ∨
    (applyFlatDiscountToAccessories now d store).2 = flatCommit now d store := by
  rw [applyFlatDiscountToAccessories]
  split_ifs <;> simp

/-- Inversion of a successful flat-discount call. -/
lemma applyFlat_ok_elim {now : Nat} {d : ℚ} {store : Store} {out : List Nat × Nat}
    {st : Store} (h : applyFlatDiscountToAccessories now d store = (.ok out, st)) :
    st = flatCommit now d store ∧
    out = (flatUpdatedIds now d store, (flatUpdatedIds now d store).length) ∧
    ¬(d ≤ 0 ∨ 100 ≤ d) ∧
    (find_by_recommendation_type store "accessory").length ≠ 0 ∧
    flatUpdatedIds now d store ≠ [] := by
  rw [applyFlatDiscountToAccessories] at h
  split_ifs at h with h1 h2 h3
  · exact absurd h (by simp)
  · exact absurd h (by simp)
  · exact absurd h (by simp)
  · simp only [Prod.mk.injEq, Except.ok.injEq] at h
    exact ⟨h.2.symm, h.1.symm, h1, h2, h3⟩

/-- The committed store of the custom operation is the input store (error
before commit) or the loop's final session contents. -/
lemma applyCustom_snd_cases (now : Nat) (ms : List (PyKey × PyConfig)) (store : Store) :
    (applyCustomDiscounts now ms store).2 = store ∨
    ∃ ids, customLoop now ms store [] = .ok ((applyCustomDiscounts now ms store).2, ids) := by
  rw [applyCustomDiscounts]
  by_cases he : ms.isEmpty = true
  · rw [if_pos he]
    exact Or.inl rfl
  · rw [if_neg he]
    cases hl : customLoop now ms store [] with
    | error err => exact Or.inl rfl
    | ok p =>
      obtain ⟨s1, ids⟩ := p
      exact Or.inr ⟨ids, by simp [hl]⟩

/-- Inversion of a successful custom-discount call. -/
lemma applyCustom_ok_elim {now : Nat} {ms : List (PyKey × PyConfig)} {store : Store}
    {ids : List Nat} {st : Store}
    (h : applyCustomDiscounts now ms store = (.ok ids, st)) :
    ms.isEmpty = false ∧ customLoop now ms store [] = .ok (st, ids) := by
  rw [applyCustomDiscounts] at h
  by_cases he : ms.isEmpty = true
  · rw [if_pos he] at h
    exact absurd h (by simp)
  · rw [if_neg he] at h
    refine ⟨by simpa using he, ?_⟩
    cases hl : customLoop now ms store [] with
    | error err => rw [hl] at h; exact absurd h (by simp)
    | ok p =>
      obtain ⟨s1, ids1⟩ := p
      rw [hl] at h
      simp only [Prod.mk.injEq, Except.ok.injEq] at h
      rw [h.1, h.2]

/-- Equal presence transports nullness. -/
lemma none_of_isSome_eq {α : Type} {a b : Option α} (h : b.isSome = a.isSome) :
    a = none → b = none := by
  intro ha
  subst ha
  cases b with
  | none => rfl
  | some x => simp at h

/-- C5: null-preservation.  For every store, every discount percent, and
every custom mapping, a price field that is null before the operation is
still null in the committed store afterwards, for both discount modes and
for both success and error outcomes. -/
theorem null_prices_preserved (now : Nat) (d : ℚ) (ms : List (PyKey × PyConfig))
    (store : Store) :
    List.Forall₂ (fun r r2 =>
      (r.base_product_price = none → r2.base_product_price = none) ∧
      (r.recommended_product_price = none → r2.recommended_product_price = none))
      store (applyFlatDiscountToAccessories now d store).2 ∧
    List.Forall₂ (fun r r2 =>
      (r.base_product_price = none → r2.base_product_price = none) ∧
      (r.recommended_product_price = none → r2.recommended_product_price = none))
      store (applyCustomDiscounts now ms store).2 := by
  constructor
  · rcases applyFlat_snd_cases now d store with h | h <;> rw [h]
    · exact List.forall₂_same.2 fun r _ => ⟨fun hh => hh, fun hh => hh⟩
    · rw [flatCommit]
      refine forall₂_map_self _ ?_
      intro r _
      by_cases hacc : (r.recommendation_type == "accessory") = true
      · rw [if_pos hacc]
        obtain ⟨_, _, s3, s4, _, _⟩ :=
          flatDiscountRecord_spec now ((100 - d) / 100) r
        exact ⟨none_of_isSome_eq s3, none_of_isSome_eq s4⟩
      · rw [if_neg hacc]
        exact ⟨fun hh => hh, fun hh => hh⟩
  · rcases applyCustom_snd_cases now ms store with h | h
    · rw [h]
      exact List.forall₂_same.2 fun r _ => ⟨fun hh => hh, fun hh => hh⟩
    · obtain ⟨ids, hl⟩ := h
      refine (customLoop_ok_frame hl).imp ?_
      rintro r r2 ⟨_, hb, hr⟩
      exact ⟨none_of_isSome_eq hb, none_of_isSome_eq hr⟩

/-- Witness for `null_prices_preserved`, instantiated on a store whose only
record has a null recommended price, with both operations applied. -/
theorem null_prices_preserved_witness :
    List.Forall₂ (fun r r2 =>
      (r.base_product_price = none → r2.base_product_price = none) ∧
      (r.recommended_product_price = none → r2.recommended_product_price = none))
      [zeroPriceRec] (applyFlatDiscountToAccessories 1 10 [zeroPriceRec]).2 ∧
    List.Forall₂ (fun r r2 =>
      (r.base_product_price = none → r2.base_product_price = none) ∧
      (r.recommended_product_price = none → r2.recommended_product_price = none))
      [zeroPriceRec]
      (applyCustomDiscounts 1
        [(PyKey.numeric 7, PyConfig.dict ⟨some (PyVal.num 10), none, false⟩)]
        [zeroPriceRec]).2 :=
  null_prices_preserved 1 10
    [(PyKey.numeric 7, PyConfig.dict ⟨some (PyVal.num 10), none, false⟩)] [zeroPriceRec]

/-- The flat-discount loop records no updated id exactly when every accessory
row has both prices null. -/
lemma flatUpdatedIds_eq_nil_iff (now : Nat) (d : ℚ) (store : Store) :
    flatUpdatedIds now d store = [] ↔
      ∀ r ∈ store, r.recommendation_type = "accessory" →
        r.base_product_price = none ∧ r.recommended_product_price = none := by
  rw [flatUpdatedIds]
  constructor
  · intro h r hr hacc
    have hmem : r ∈ find_by_recommendation_type store "accessory" := by
      simp [find_by_recommendation_type, List.mem_filter, hr, hacc]
    have hfl := List.map_eq_nil_iff.1 h
    have hflag := List.filter_eq_nil_iff.1 hfl r hmem
    obtain ⟨_, _, _, _, s5, _⟩ := flatDiscountRecord_spec now ((100 - d) / 100) r
    rw [s5] at hflag
    simp only [Bool.or_eq_true, not_or] at hflag
    exact ⟨Option.not_isSome_iff_eq_none.1 hflag.1, Option.not_isSome_iff_eq_none.1 hflag.2⟩
  · intro hall
    rw [List.map_eq_nil_iff, List.filter_eq_nil_iff]
    intro r hmem
    rw [find_by_recommendation_type, List.mem_filter] at hmem
    obtain ⟨hr, hacc⟩ := hmem
    obtain ⟨hb, hrec⟩ := hall r hr (by simpa using hacc)
    obtain ⟨_, _, _, _, s5, _⟩ := flatDiscountRecord_spec now ((100 - d) / 100) r
    rw [s5]
    simp [hb, hrec]

/-- C6: for every valid percent, `apply_flat_discount_to_accessories` fails
with the `ResourceNotFoundError` in exactly two situations — the store holds
no accessory-typed record, or it holds some but every one has both prices
null (so nothing was updated) — and in both the committed store is the
unchanged input store. -/
theorem flat_notfound_iff (now : Nat) (d : ℚ) (store : Store)
    (h0 : 0 < d) (h1 : d < 100) :
    applyFlatDiscountToAccessories now d store
        = (.error (.notFound "No matching accessory recommendations found"), store)
      ↔ ((∀ r ∈ store, r.recommendation_type ≠ "accessory") ∨
          ((∃ r ∈ store, r.recommendation_type = "accessory") ∧
            ∀ r ∈ store, r.recommendation_type = "accessory" →
              r.base_product_price = none ∧ r.recommended_product_price = none)) := by
  have hv : ¬(d ≤ 0 ∨ 100 ≤ d) := by
    simp only [not_or, not_le]
    exact ⟨h0, h1⟩
  rw [applyFlatDiscountToAccessories, if_neg hv]
  by_cases h2 : (find_by_recommendation_type store "accessory").length = 0
  · rw [if_pos h2]
    refine iff_of_true rfl (Or.inl ?_)
    intro r hr hacc
    have : r ∈ find_by_recommendation_type store "accessory" := by
      simp [find_by_recommendation_type, List.mem_filter, hr, hacc]
    rw [List.length_eq_zero.1 h2] at this
    cases this
  · rw [if_neg h2]
    have hex : ∃ r ∈ store, r.recommendation_type = "accessory" := by
      rcases List.exists_mem_of_length_pos (Nat.pos_of_ne_zero h2) with ⟨r, hr⟩
      rw [find_by_recommendation_type, List.mem_filter] at hr
      exact ⟨r, hr.1, by simpa using hr.2⟩
    by_cases h3 : flatUpdatedIds now d store = []
    · rw [if_pos h3]
      exact iff_of_true rfl (Or.inr ⟨hex, (flatUpdatedIds_eq_nil_iff now d store).1 h3⟩)
    · rw [if_neg h3]
      refine iff_of_false (by simp) ?_
      rintro (hnone | ⟨_, hall⟩)
      · obtain ⟨r, hr, hacc⟩ := hex
        exact hnone r hr hacc
      · exact h3 ((flatUpdatedIds_eq_nil_iff now d store).2 hall)

/-- Witness for `flat_notfound_iff`: a store holding only a cross-sell record
makes `ApplyFlatDiscount(10)` fail with the not-found error and leave the
store unchanged. -/
theorem flat_notfound_iff_witness :
    (0 : ℚ) < 10 ∧ (10 : ℚ) < 100 ∧
    applyFlatDiscountToAccessories 3 10
        [{ scenarioRec1 with recommendation_type := "cross-sell" }]
      = (.error (.notFound "No matching accessory recommendations found"),
          [{ scenarioRec1 with recommendation_type := "cross-sell" }]) :=
  ⟨by norm_num, by norm_num,
    (flat_notfound_iff 3 10 [{ scenarioRec1 with recommendation_type := "cross-sell" }]
        (by norm_num) (by norm_num)).2
      (Or.inl (by intro r hr; rw [List.mem_singleton] at hr; subst hr; simp [scenarioRec1]))⟩

/-- A valid percentage slot passes the custom path's check. -/
lemma validatePresentPercent_of_valid {o : Option PyVal}
    (h : percentPresentValid o = true) : ∃ p, validatePresentPercent o = .ok p := by
  match o, h with
  | none, _ => exact ⟨none, rfl⟩
  | some (.num q), h =>
    simp only [percentPresentValid, Bool.and_eq_true, decide_eq_true_eq] at h
    refine ⟨some q, ?_⟩
    rw [validatePresentPercent, if_neg]
    push_neg
    exact ⟨h.1, h.2⟩

/-- A well-formed entry whose id matches no store record is a no-op: no
error, no mutation, no id recorded. -/
lemma processEntry_wf_missing {now rid : Nat} {cfg : PyConfig} {store : Store}
    {acc : List Nat}
    (hwf : wellFormedEntry (PyKey.numeric rid, cfg) = true)
    (hmiss : ∀ r ∈ store, r.id ≠ rid) :
    processEntry now (PyKey.numeric rid, cfg) store acc = .ok (store, acc) := by
  cases cfg with
  | notDict => exact absurd hwf (by simp [wellFormedEntry])
  | dict c =>
    simp only [wellFormedEntry, Bool.and_eq_true, Bool.not_eq_true'] at hwf
    obtain ⟨⟨⟨hemp, hbn⟩, hvb⟩, hvr⟩ := hwf
    rw [processEntry]
    dsimp only
    rw [if_neg (by simp [hemp])]
    rw [if_neg (by
      intro hcon
      rw [Bool.and_eq_false_iff] at hbn
      rcases hbn with hb | hb <;> rw [hb] at hcon <;> simp at hcon)]
    obtain ⟨pb, hpb⟩ := validatePresentPercent_of_valid hvb
    obtain ⟨pr, hpr⟩ := validatePresentPercent_of_valid hvr
    rw [hpb, hpr]
    have hfind : findById store rid = none := by
      rw [findById, List.find?_eq_none]
      intro r hr
      simpa using hmiss r hr
    rw [hfind]

/-- C7: a well-formed custom-mapping entry whose id matches no stored record
is skipped silently — processing the mapping with the entry equals
processing it with the entry removed — and consequently a non-empty mapping
of well-formed entries that all reference non-existent ids succeeds with an
empty updated-ids list and an unchanged committed store. -/
theorem custom_missing_ids_skipped (now : Nat) (store : Store) :
    (∀ (rid : Nat) (cfg : PyConfig) (pre post : List (PyKey × PyConfig)) (acc : List Nat),
      wellFormedEntry (PyKey.numeric rid, cfg) = true →
      (∀ r ∈ store, r.id ≠ rid) →
      customLoop now (pre ++ (PyKey.numeric rid, cfg) :: post) store acc
        = customLoop now (pre ++ post) store acc) ∧
    (∀ ms : List (PyKey × PyConfig), ms ≠ [] →
      (∀ e ∈ ms, wellFormedEntry e = true ∧
        ∀ rid, e.1 = PyKey.numeric rid → ∀ r ∈ store, r.id ≠ rid) →
      applyCustomDiscounts now ms store = (.ok [], store)) := by
  have hloop : ∀ (ms : List (PyKey × PyConfig)) (store0 : Store) (acc : List Nat),
      (∀ e ∈ ms, wellFormedEntry e = true ∧
        ∀ rid, e.1 = PyKey.numeric rid → ∀ r ∈ store0, r.id ≠ rid) →
      customLoop now ms store0 acc = .ok (store0, acc) := by
    intro ms
    induction ms with
    | nil => intro store0 acc _; rfl
    | cons e rest ih =>
      intro store0 acc hall
      obtain ⟨hwf, hm⟩ := hall e (List.mem_cons_self ..)
      obtain ⟨k, cfg⟩ := e
      cases k with
      | malformed => exact absurd hwf (by simp [wellFormedEntry])
      | numeric rid =>
        rw [customLoop, processEntry_wf_missing hwf (hm rid rfl)]
        exact ih store0 acc fun e2 he2 => hall e2 (List.mem_cons_of_mem _ he2)
  constructor
  · intro rid cfg pre post acc hwf hmiss
    induction pre generalizing store acc with
    | nil =>
      simp only [List.nil_append]
      rw [customLoop, processEntry_wf_missing hwf hmiss]
    | cons p pre ih =>
      simp only [List.cons_append]
      rw [customLoop, customLoop]
      cases hpe : processEntry now p store acc with
      | error err => rfl
      | ok q =>
        obtain ⟨s1, a1⟩ := q
        dsimp only
        refine ih s1 a1 ?_
        intro r hr
        obtain ⟨r0, hr0, hid, _, _⟩ := forall₂_mem_right (processEntry_ok_frame hpe) hr
        rw [hid]
        exact hmiss r0 hr0
  · intro ms hne hall
    rw [applyCustomDiscounts, if_neg (by simpa using hne), hloop ms store [] hall]

/-- Witness for `custom_missing_ids_skipped`: a well-formed mapping targeting
only the non-existent id `99` succeeds with an empty updated-ids list and no
mutation. -/
theorem custom_missing_ids_skipped_witness :
    applyCustomDiscounts 4
        [(PyKey.numeric 99, PyConfig.dict ⟨some (PyVal.num 10), none, false⟩)] [scenarioRec1]
      = (.ok [], [scenarioRec1]) :=
  (custom_missing_ids_skipped 4 [scenarioRec1]).2
    [(PyKey.numeric 99, PyConfig.dict ⟨some (PyVal.num 10), none, false⟩)]
    (by simp)
    (by
      intro e he
      rw [List.mem_singleton] at he
      subst he
      refine ⟨by decide, ?_⟩
      intro rid hrid r hr
      injection hrid with h99
      subst h99
      rw [List.mem_singleton] at hr
      subst hr
      decide)

/-- An out-of-range (numeric) percentage slot fails the custom path's check
with the `DataValidationError`. -/
lemma validatePresentPercent_outOfRange {o : Option PyVal}
    (h : percentOutOfRange o = true) :
    validatePresentPercent o = .error (.validation "Discount must be between 0 and 100") := by
  match o, h with
  | some (.num q), h =>
    simp only [percentOutOfRange, Bool.or_eq_true, decide_eq_true_eq] at h
    rw [validatePresentPercent, if_pos h]

/-- An in-range numeric (or absent) percentage slot passes the custom path's
check. -/
lemma validatePresentPercent_ok_of_numeric {o : Option PyVal}
    (hn : percentNumericOrAbsent o = true) (hr : percentOutOfRange o = false) :
    ∃ p, validatePresentPercent o = .ok p := by
  match o, hn with
  | none, _ => exact ⟨none, rfl⟩
  | some (.num q), _ =>
    simp only [percentOutOfRange, Bool.or_eq_true, decide_eq_true_eq] at hr
    refine ⟨some q, ?_⟩
    rw [validatePresentPercent, if_neg (by simpa using hr)]

/-- A malformed entry whose present percentages are numeric makes
`processEntry` raise the `DataValidationError` of its first failing check. -/
lemma processEntry_malformed_error {now : Nat} {e : PyKey × PyConfig}
    {store : Store} {acc : List Nat}
    (hnum : (match e.2 with
      | .notDict => true
      | .dict c => percentNumericOrAbsent c.base_product_price &&
          percentNumericOrAbsent c.recommended_product_price) = true)
    (hbad : entryMalformed e = true) :
    ∃ msg, processEntry now e store acc = .error (.validation msg) := by
  obtain ⟨k, cfg⟩ := e
  cases k with
  | malformed => exact ⟨_, rfl⟩
  | numeric rid =>
    cases cfg with
    | notDict => exact ⟨_, rfl⟩
    | dict c =>
      rw [processEntry]
      dsimp only
      by_cases hemp : configIsEmpty c = true
      · rw [if_pos hemp]
        exact ⟨_, rfl⟩
      rw [if_neg hemp]
      by_cases hbn : c.base_product_price.isNone = true ∧ c.recommended_product_price.isNone = true
      · rw [if_pos hbn]
        exact ⟨_, rfl⟩
      rw [if_neg hbn]
      simp only [Bool.and_eq_true] at hnum
      by_cases hob : percentOutOfRange c.base_product_price = true
      · rw [validatePresentPercent_outOfRange hob]
        exact ⟨_, rfl⟩
      · have hor : percentOutOfRange c.recommended_product_price = true := by
          simp only [entryMalformed, Bool.or_eq_true] at hbad
          rcases hbad with ((hq | hq) | hq) | hq
          · exact absurd hq (by simp [hemp])
          · exact absurd hq (by
              intro hcon
              rw [Bool.and_eq_true] at hcon
              exact hbn ⟨hcon.1, hcon.2⟩)
          · exact absurd hq (by simp [hob])
          · exact hq
        obtain ⟨pb, hpb⟩ := validatePresentPercent_ok_of_numeric hnum.1
          (by simpa using hob)
        rw [hpb, validatePresentPercent_outOfRange hor]
        exact ⟨_, rfl⟩

/-- A non-malformed entry with numeric percentages cannot raise. -/
lemma processEntry_ok_of_not_malformed {now : Nat} {e : PyKey × PyConfig}
    {store : Store} {acc : List Nat}
    (hnum : (match e.2 with
      | .notDict => true
      | .dict c => percentNumericOrAbsent c.base_product_price &&
          percentNumericOrAbsent c.recommended_product_price) = true)
    (hok : entryMalformed e = false) :
    ∃ s a, processEntry now e store acc = .ok (s, a) := by
  obtain ⟨k, cfg⟩ := e
  cases k with
  | malformed => exact absurd hok (by simp [entryMalformed])
  | numeric rid =>
    cases cfg with
    | notDict => exact absurd hok (by simp [entryMalformed])
    | dict c =>
      simp only [entryMalformed, Bool.or_eq_false_iff] at hok
      obtain ⟨⟨⟨hemp, hbn⟩, hob⟩, hor⟩ := hok
      simp only [Bool.and_eq_true] at hnum
      rw [processEntry]
      dsimp only
      rw [if_neg (by simp [hemp])]
      rw [if_neg (by
        intro hcon
        rw [Bool.and_eq_false_iff] at hbn
        rcases hbn with hb | hb <;> rw [hb] at hcon <;> simp at hcon)]
      obtain ⟨pb, hpb⟩ := validatePresentPercent_ok_of_numeric hnum.1 hob
      obtain ⟨pr, hpr⟩ := validatePresentPercent_ok_of_numeric hnum.2 hor
      rw [hpb, hpr]
      cases hf : findById store rid with
      | none => exact ⟨store, acc, rfl⟩
      | some r0 =>
        dsimp only
        by_cases hu : (customDiscountRecord now pb pr r0).2 = true
        · rw [if_pos hu]
          exact ⟨_, _, rfl⟩
        · rw [if_neg hu]
          exact ⟨store, acc, rfl⟩

/-- The custom loop raises a `DataValidationError` whenever the mapping
contains a malformed entry and all present percentages are numeric. -/
lemma customLoop_malformed_error {now : Nat} {ms : List (PyKey × PyConfig)} :
    ∀ {store : Store} {acc : List Nat},
    allPercentsNumeric ms = true →
    (∃ e ∈ ms, entryMalformed e = true) →
    ∃ msg, customLoop now ms store acc = .error (.validation msg) := by
  induction ms with
  | nil =>
    intro store acc _ hbad
    obtain ⟨e, he, _⟩ := hbad
    cases he
  | cons e rest ih =>
    intro store acc hnum hbad
    rw [allPercentsNumeric, List.all_cons, Bool.and_eq_true] at hnum
    by_cases hme : entryMalformed e = true
    · obtain ⟨msg, hmsg⟩ := @processEntry_malformed_error now e store acc hnum.1 hme
      refine ⟨msg, ?_⟩
      rw [customLoop, hmsg]
    · obtain ⟨s1, a1, hpe⟩ :=
        @processEntry_ok_of_not_malformed now e store acc hnum.1 (by simpa using hme)
      have hbad2 : ∃ e2 ∈ rest, entryMalformed e2 = true := by
        obtain ⟨e2, he2, hm2⟩ := hbad
        rcases List.mem_cons.1 he2 with rfl | he3
        · exact absurd hm2 hme
        · exact ⟨e2, he3, hm2⟩
      obtain ⟨msg, hmsg⟩ := ih hnum.2 hbad2
      refine ⟨msg, ?_⟩
      rw [customLoop, hpe]
      exact hmsg

/-- C1 (amended): for every custom-discount mapping all of whose present
percentage values are numeric, the presence of at least one malformed entry
(non-numeric key, empty or non-object config, config with neither discount
field, or out-of-range percentage) makes `apply_custom_discounts` fail with
`DataValidationError` and leave the committed store unchanged — including
records targeted by valid entries that precede the malformed one in
iteration order.  (Without the numeric-percentage restriction a preceding
string-typed percentage raises `TypeError` first: `custom_malformed_claim_cex`.) -/
theorem custom_malformed_fail_fast (now : Nat) (ms : List (PyKey × PyConfig)) (store : Store)
    (hnum : allPercentsNumeric ms = true)
    (hbad : ∃ e ∈ ms, entryMalformed e = true) :
    ∃ msg, applyCustomDiscounts now ms store = (.error (.validation msg), store) := by
  have hne : ms ≠ [] := by
    obtain ⟨e, he, _⟩ := hbad
    intro hcon
    subst hcon
    cases he
  obtain ⟨msg, hmsg⟩ := @customLoop_malformed_error now ms store [] hnum hbad
  refine ⟨msg, ?_⟩
  rw [applyCustomDiscounts, if_neg (by simpa using hne), hmsg]

/-- Witness for `custom_malformed_fail_fast`: a valid entry targeting an
existing record precedes a malformed (non-numeric) key; the whole call fails
with `DataValidationError` and the store — including the record targeted by
the valid first entry — is unchanged. -/
theorem custom_malformed_fail_fast_witness :
    ∃ msg,
      applyCustomDiscounts 6
          [(PyKey.numeric 1, PyConfig.dict ⟨some (PyVal.num 10), none, false⟩),
            (PyKey.malformed, PyConfig.notDict)] [scenarioRec1]
        = (.error (.validation msg), [scenarioRec1]) :=
  custom_malformed_fail_fast 6
    [(PyKey.numeric 1, PyConfig.dict ⟨some (PyVal.num 10), none, false⟩),
      (PyKey.malformed, PyConfig.notDict)] [scenarioRec1]
    (by decide) (by decide)

/-- C2 (amended): on a successful run of either operation, a record's
`updated_date` is set to the operation timestamp `now` if and only if at
least one of its price fields was recomputed — for the flat path: the record
is an accessory with at least one present price; for the custom path: some
mapping entry stamps it — and is left untouched otherwise.  Recomputation to
an unchanged value (e.g. a price of `0.00`) still refreshes `updated_date`
(`updated_date_claim_cex`). -/
theorem updated_date_iff_price_recomputed
    (now : Nat) (d : ℚ) (storeF : Store) (outF : List Nat × Nat) (stF : Store)
    (ms : List (PyKey × PyConfig)) (storeC : Store) (idsC : List Nat) (stC : Store)
    (hF : applyFlatDiscountToAccessories now d storeF = (.ok outF, stF))
    (hN : (storeC.map Recommendation.id).Nodup)
    (hC : applyCustomDiscounts now ms storeC = (.ok idsC, stC)) :
    List.Forall₂ (fun r r2 => r2.updated_date =
        (if r.recommendation_type = "accessory" ∧
            (r.base_product_price.isSome = true ∨ r.recommended_product_price.isSome = true)
          then now else r.updated_date)) storeF stF ∧
    List.Forall₂ (fun r r2 => r2.updated_date =
        (if ms.any (fun e2 => entryStamps e2 r) = true then now else r.updated_date))
      storeC stC := by
  constructor
  · obtain ⟨hst, _, _, _, _⟩ := applyFlat_ok_elim hF
    subst hst
    rw [flatCommit]
    refine forall₂_map_self _ ?_
    intro r _
    by_cases hacc : (r.recommendation_type == "accessory") = true
    · rw [if_pos hacc]
      have heq : r.recommendation_type = "accessory" := by simpa using hacc
      obtain ⟨_, _, _, _, s5, s6⟩ := flatDiscountRecord_spec now ((100 - d) / 100) r
      rw [s6, s5]
      by_cases hp : r.base_product_price.isSome = true ∨ r.recommended_product_price.isSome = true
      · rw [if_pos (by simpa using hp), if_pos ⟨heq, hp⟩]
      · rw [if_neg (by simpa using hp), if_neg (by
          rintro ⟨_, hcon⟩
          exact hp hcon)]
    · rw [if_neg hacc]
      rw [if_neg (by
        rintro ⟨hcon, _⟩
        exact hacc (by simpa using hcon))]
  · obtain ⟨_, hloop⟩ := applyCustom_ok_elim hC
    refine ((customLoop_ok_forall₂ hN hloop).1).imp ?_
    rintro r r2 ⟨_, _, _, hud⟩
    exact hud

/-- Witness for `updated_date_iff_price_recomputed`: flat discount on the
zero-priced accessory (stamped), custom mapping targeting a missing id
(nothing stamped). -/
theorem updated_date_iff_price_recomputed_witness :
    List.Forall₂ (fun r r2 => r2.updated_date =
        (if r.recommendation_type = "accessory" ∧
            (r.base_product_price.isSome = true ∨ r.recommended_product_price.isSome = true)
          then 1 else r.updated_date))
      [zeroPriceRec] [{ zeroPriceRec with updated_date := 1 }] ∧
    List.Forall₂ (fun r r2 => r2.updated_date =
        (if [(PyKey.numeric 99, PyConfig.dict ⟨some (PyVal.num 10), none, false⟩)].any
              (fun e2 => entryStamps e2 r) = true
          then 1 else r.updated_date))
      [scenarioRec1] [scenarioRec1] :=
  updated_date_iff_price_recomputed 1 10 [zeroPriceRec] ([7], 1)
    [{ zeroPriceRec with updated_date := 1 }]
    [(PyKey.numeric 99, PyConfig.dict ⟨some (PyVal.num 10), none, false⟩)]
    [scenarioRec1] [] [scenarioRec1]
    (by
      simp only [applyFlatDiscountToAccessories, flatUpdatedIds, flatCommit,
        find_by_recommendation_type, flatDiscountRecord, zeroPriceRec, List.filter, List.map]
      norm_num [quantize2, roundHalfUpInt])
    (by simp)
    rfl

/-- C10: within one successful invocation of either operation, every record
reported as updated carries the identical `updated_date`, namely the single
timestamp `now` captured once at the start of the operation (the embedding's
`now` parameter stands for the one `current_timestamp = datetime.now(...)`
call in the source). -/
theorem batch_timestamp_shared
    (now : Nat) (d : ℚ) (storeF : Store) (outF : List Nat × Nat) (stF : Store)
    (ms : List (PyKey × PyConfig)) (storeC : Store) (idsC : List Nat) (stC : Store)
    (hNF : (storeF.map Recommendation.id).Nodup)
    (hF : applyFlatDiscountToAccessories now d storeF = (.ok outF, stF))
    (hNC : (storeC.map Recommendation.id).Nodup)
    (hC : applyCustomDiscounts now ms storeC = (.ok idsC, stC)) :
    (∀ r2 ∈ stF, r2.id ∈ outF.1 → r2.updated_date = now) ∧
    (∀ r2 ∈ stC, r2.id ∈ idsC → r2.updated_date = now) := by
  constructor
  · obtain ⟨hst, hout, _, _, _⟩ := applyFlat_ok_elim hF
    subst hst
    subst hout
    intro r2 hr2 hid
    rw [flatCommit, List.mem_map] at hr2
    obtain ⟨r, hr, hgr⟩ := hr2
    dsimp only at hid
    rw [flatUpdatedIds, List.mem_map] at hid
    obtain ⟨r1, hr1f, hid1⟩ := hid
    rw [List.mem_filter] at hr1f
    obtain ⟨hr1a, hflag⟩ := hr1f
    rw [find_by_recommendation_type, List.mem_filter] at hr1a
    obtain ⟨hr1mem, hr1acc⟩ := hr1a
    have hgid : r2.id = r.id := by
      subst hgr
      by_cases hacc : (r.recommendation_type == "accessory") = true
      · rw [if_pos hacc]
        exact (flatDiscountRecord_spec now ((100 - d) / 100) r).1
      · rw [if_neg hacc]
    have hrr : r1 = r :=
      List.inj_on_of_nodup_map hNF hr1mem hr (by rw [hid1, hgid])
    subst hrr
    subst hgr
    rw [if_pos hr1acc]
    obtain ⟨_, _, _, _, _, s6⟩ := flatDiscountRecord_spec now ((100 - d) / 100) r1
    rw [s6, if_pos hflag]
  · obtain ⟨_, hloop⟩ := applyCustom_ok_elim hC
    obtain ⟨hfa, hids⟩ := customLoop_ok_forall₂ hNC hloop
    intro r2 hr2 hid
    rcases hids r2.id hid with hin | ⟨r, hrmem, hrid, hany⟩
    · cases hin
    · obtain ⟨a, hamem, haid, hab, har, haud⟩ := forall₂_mem_right hfa hr2
      have hra : r = a :=
        List.inj_on_of_nodup_map hNC hrmem hamem (by rw [hrid, ← haid])
      subst hra
      rw [haud, if_pos hany]

/-- Witness for `batch_timestamp_shared` on the zero-priced accessory (flat)
and a missing-id custom mapping. -/
theorem batch_timestamp_shared_witness :
    (∀ r2 ∈ ([{ zeroPriceRec with updated_date := 1 }] : Store),
      r2.id ∈ (([7], 1) : List Nat × Nat).1 → r2.updated_date = 1) ∧
    (∀ r2 ∈ ([scenarioRec1] : Store), r2.id ∈ ([] : List Nat) → r2.updated_date = 1) :=
  batch_timestamp_shared 1 10 [zeroPriceRec] ([7], 1)
    [{ zeroPriceRec with updated_date := 1 }]
    [(PyKey.numeric 99, PyConfig.dict ⟨some (PyVal.num 10), none, false⟩)]
    [scenarioRec1] [] [scenarioRec1]
    (by simp)
    (by
      simp only [applyFlatDiscountToAccessories, flatUpdatedIds, flatCommit,
        find_by_recommendation_type, flatDiscountRecord, zeroPriceRec, List.filter, List.map]
      norm_num [quantize2, roundHalfUpInt])
    (by simp)
    rfl
